import Mathlib

/-!
Verification of the OptionPricing repository: a shallow embedding in Lean 4 of
the two pricers (the Black-Scholes analytic family in `Black-Scholes.py` and the
binomial-tree American pricer in `AmericanOption.py`), with theorems settling the
frozen claims about them.  Machine floats are modelled by real numbers; numpy and
scipy library functions (`exp`, `log`, `sqrt`, `norm.cdf`) are modelled by their
mathematical meanings (`Real.exp`, `Real.log`, `Real.sqrt`, and the standard
normal cumulative distribution function `norm_cdf` below).
-/

set_option linter.unusedVariables false

open MeasureTheory

/-- Standard normal cumulative distribution function, the meaning of scipy's
`ss.norm.cdf(x, 0, 1)`: the Gaussian density `exp (-t^2/2) / sqrt (2*pi)`
integrated over `(-infinity, x]`. -/
noncomputable def norm_cdf (x : ℝ) : ℝ :=
  (∫ t in Set.Iic x, Real.exp (-t ^ 2 / 2)) / Real.sqrt (2 * Real.pi)

section BlackScholes

variable (S0 K T v r q : ℝ)

/-- `BSmodel._d1` from `Black-Scholes.py`. -/
noncomputable def d1 : ℝ :=
  (Real.log (S0 / K) + (r - q + 0.5 * v ^ 2) * T) / (v * Real.sqrt T)

/-- `BSmodel._d2` from `Black-Scholes.py` (computed by its own formula, not as
`d1 - v * sqrt T`). -/
noncomputable def d2 : ℝ :=
  (Real.log (S0 / K) + (r - q - 0.5 * v ^ 2) * T) / (v * Real.sqrt T)

/-- `VanillaEuro.vanilla_european_call` from `Black-Scholes.py`. -/
noncomputable def vanilla_european_call : ℝ :=
  S0 * Real.exp (-q * T) * norm_cdf (d1 S0 K T v r q)
    - K * Real.exp (-1 * r * T) * norm_cdf (d2 S0 K T v r q)

/-- `VanillaEuro.vanilla_european_put` from `Black-Scholes.py`. -/
noncomputable def vanilla_european_put : ℝ :=
  K * Real.exp (-1 * r * T) * norm_cdf (-1 * d2 S0 K T v r q)
    - S0 * Real.exp (-q * T) * norm_cdf (-1 * d1 S0 K T v r q)

/-- `BinaryOption.bi_cashcall` from `Black-Scholes.py`. -/
noncomputable def bi_cashcall (Q : ℝ) : ℝ :=
  Q * Real.exp (-1 * r * T) * norm_cdf (d2 S0 K T v r q)

/-- `BinaryOption.bi_cashput` from `Black-Scholes.py`: note the trailing
`* np.exp (-q*T)` factor present in the source. -/
noncomputable def bi_cashput (Q : ℝ) : ℝ :=
  Q * Real.exp (-1 * r * T) * norm_cdf (-1 * d2 S0 K T v r q) * Real.exp (-q * T)

end BlackScholes

/-- C2: for positive S0, K, T, v and any r, q, `vanilla_european_call` returns
`S0*e^(-qT)*Phi(d1) - K*e^(-rT)*Phi(d2)` and `vanilla_european_put` returns
`K*e^(-rT)*Phi(-d2) - S0*e^(-qT)*Phi(-d1)`, where `Phi` is the standard normal
CDF and d1, d2 are as computed by the `BSmodel` constructor. -/
theorem C2_vanilla_formulas (S0 K T v r q : ℝ)
    (hS : 0 < S0) (hK : 0 < K) (hT : 0 < T) (hv : 0 < v) :
    vanilla_european_call S0 K T v r q
        = S0 * Real.exp (-q * T) * norm_cdf (d1 S0 K T v r q)
          - K * Real.exp (-r * T) * norm_cdf (d2 S0 K T v r q)
      ∧ vanilla_european_put S0 K T v r q
        = K * Real.exp (-r * T) * norm_cdf (-d2 S0 K T v r q)
          - S0 * Real.exp (-q * T) * norm_cdf (-d1 S0 K T v r q) := by
  constructor <;>
    simp [vanilla_european_call, vanilla_european_put, neg_one_mul]

/-- Witness for C2 at S0 = 2, K = 1, T = 1, v = 1, r = 0, q = 0. -/
theorem C2_vanilla_formulas_witness :
    vanilla_european_call 2 1 1 1 0 0
        = 2 * Real.exp (-0 * 1) * norm_cdf (d1 2 1 1 1 0 0)
          - 1 * Real.exp (-0 * 1) * norm_cdf (d2 2 1 1 1 0 0)
      ∧ vanilla_european_put 2 1 1 1 0 0
        = 1 * Real.exp (-0 * 1) * norm_cdf (-d2 2 1 1 1 0 0)
          - 2 * Real.exp (-0 * 1) * norm_cdf (-d1 2 1 1 1 0 0) :=
  C2_vanilla_formulas 2 1 1 1 0 0 (by norm_num) (by norm_num) (by norm_num)
    (by norm_num)

/-- C7: for positive S0, K, T, v, any r, q and any cash payout Q, `bi_cashcall`
returns `Q*e^(-rT)*Phi(d2)` while `bi_cashput` returns
`Q*e^(-rT)*e^(-qT)*Phi(-d2)`: the put leg carries an extra dividend-discount
factor `e^(-qT)` that the call leg does not. -/
theorem C7_binary_cash_formulas (S0 K T v r q Q : ℝ)
    (hS : 0 < S0) (hK : 0 < K) (hT : 0 < T) (hv : 0 < v) :
    bi_cashcall S0 K T v r q Q = Q * Real.exp (-r * T) * norm_cdf (d2 S0 K T v r q)
      ∧ bi_cashput S0 K T v r q Q
        = Q * Real.exp (-r * T) * Real.exp (-q * T) * norm_cdf (-d2 S0 K T v r q) := by
  constructor
  · simp [bi_cashcall, neg_one_mul]
  · simp only [bi_cashput, neg_one_mul]
    ring

/-- Witness for C7 at S0 = 2, K = 1, T = 1, v = 1, r = 0, q = 0, Q = 5. -/
theorem C7_binary_cash_formulas_witness :
    bi_cashcall 2 1 1 1 0 0 5 = 5 * Real.exp (-0 * 1) * norm_cdf (d2 2 1 1 1 0 0)
      ∧ bi_cashput 2 1 1 1 0 0 5
        = 5 * Real.exp (-0 * 1) * Real.exp (-0 * 1) * norm_cdf (-d2 2 1 1 1 0 0) :=
  C7_binary_cash_formulas 2 1 1 1 0 0 5 (by norm_num) (by norm_num) (by norm_num)
    (by norm_num)

/-- C8: for positive S0, K, T, v and any r, q, the d1 and d2 computed by the
`BSmodel` constructor satisfy `d1 = (ln(S0/K) + (r - q + v^2/2)*T)/(v*sqrt T)`
and `d2 = d1 - v*sqrt T`, exactly in real arithmetic, even though the source
computes d2 by an independent formula. -/
theorem C8_d1_d2_relation (S0 K T v r q : ℝ)
    (hS : 0 < S0) (hK : 0 < K) (hT : 0 < T) (hv : 0 < v) :
    d1 S0 K T v r q
        = (Real.log (S0 / K) + (r - q + v ^ 2 / 2) * T) / (v * Real.sqrt T)
      ∧ d2 S0 K T v r q = d1 S0 K T v r q - v * Real.sqrt T := by
  have hsT : 0 < Real.sqrt T := Real.sqrt_pos.mpr hT
  have hvT : v * Real.sqrt T ≠ 0 := by positivity
  constructor
  · unfold d1; ring_nf
  · unfold d1 d2
    field_simp
    ring_nf
    rw [Real.sq_sqrt hT.le]
    ring

/-- Witness for C8 at S0 = 2, K = 1, T = 1, v = 1, r = 0, q = 0. -/
theorem C8_d1_d2_relation_witness :
    d1 2 1 1 1 0 0
        = (Real.log (2 / 1) + (0 - 0 + 1 ^ 2 / 2) * 1) / (1 * Real.sqrt 1)
      ∧ d2 2 1 1 1 0 0 = d1 2 1 1 1 0 0 - 1 * Real.sqrt 1 :=
  C8_d1_d2_relation 2 1 1 1 0 0 (by norm_num) (by norm_num) (by norm_num)
    (by norm_num)

/-- The standard normal CDF satisfies `Phi x + Phi (-x) = 1`: symmetry of the
Gaussian density plus the Gaussian integral `∫ exp (-t^2/2) = sqrt (2*pi)`. -/
theorem norm_cdf_add_neg (x : ℝ) : norm_cdf x + norm_cdf (-x) = 1 := by
  have heq : (fun t : ℝ => Real.exp (-t ^ 2 / 2))
      = fun t : ℝ => Real.exp (-(1 / 2 : ℝ) * t ^ 2) := by
    funext t; congr 1; ring
  have hint : Integrable (fun t : ℝ => Real.exp (-t ^ 2 / 2)) := by
    rw [heq]; exact integrable_exp_neg_mul_sq (by norm_num)
  have htotal : (∫ t : ℝ, Real.exp (-t ^ 2 / 2)) = Real.sqrt (2 * Real.pi) := by
    rw [heq, integral_gaussian, show Real.pi / (1 / 2) = 2 * Real.pi by ring]
  have hneg : (∫ t in Set.Iic (-x), Real.exp (-t ^ 2 / 2))
      = ∫ t in Set.Ioi x, Real.exp (-t ^ 2 / 2) := by
    calc (∫ t in Set.Iic (-x), Real.exp (-t ^ 2 / 2))
        = ∫ t in Set.Iic (-x), Real.exp (-(-t) ^ 2 / 2) := by simp [neg_sq]
      _ = ∫ t in Set.Ioi (-(-x)), Real.exp (-t ^ 2 / 2) :=
          integral_comp_neg_Iic (-x) fun t => Real.exp (-t ^ 2 / 2)
      _ = ∫ t in Set.Ioi x, Real.exp (-t ^ 2 / 2) := by rw [neg_neg]
  have hsplit : (∫ t in Set.Iic x, Real.exp (-t ^ 2 / 2))
        + (∫ t in Set.Ioi x, Real.exp (-t ^ 2 / 2))
      = ∫ t : ℝ, Real.exp (-t ^ 2 / 2) :=
    intervalIntegral.integral_Iic_add_Ioi hint.integrableOn hint.integrableOn
  have hpos : 0 < Real.sqrt (2 * Real.pi) :=
    Real.sqrt_pos.mpr (by positivity)
  unfold norm_cdf
  rw [div_add_div_same, hneg, hsplit, htotal, div_self hpos.ne']

/-- C4: for positive S0, K, T, v and any r, q, put-call parity holds exactly in
real arithmetic: `vanilla_european_call - vanilla_european_put
= S0*e^(-qT) - K*e^(-rT)`. -/
theorem C4_put_call_parity (S0 K T v r q : ℝ)
    (hS : 0 < S0) (hK : 0 < K) (hT : 0 < T) (hv : 0 < v) :
    vanilla_european_call S0 K T v r q - vanilla_european_put S0 K T v r q
      = S0 * Real.exp (-q * T) - K * Real.exp (-r * T) := by
  have h1 := norm_cdf_add_neg (d1 S0 K T v r q)
  have h2 := norm_cdf_add_neg (d2 S0 K T v r q)
  simp only [vanilla_european_call, vanilla_european_put, neg_one_mul]
  linear_combination (S0 * Real.exp (-q * T)) * h1 - (K * Real.exp (-r * T)) * h2

/-- Witness for C4 at S0 = 2, K = 1, T = 1, v = 1, r = 0, q = 0. -/
theorem C4_put_call_parity_witness :
    vanilla_european_call 2 1 1 1 0 0 - vanilla_european_put 2 1 1 1 0 0
      = 2 * Real.exp (-0 * 1) - 1 * Real.exp (-0 * 1) :=
  C4_put_call_parity 2 1 1 1 0 0 (by norm_num) (by norm_num) (by norm_num)
    (by norm_num)

/-- `BarrierOption._lambda` from `Black-Scholes.py`. -/
noncomputable def lamb (v r q : ℝ) : ℝ := (r - q + v ^ 2 / 2) / v ^ 2

/-- `BarrierOption._y` from `Black-Scholes.py`. -/
noncomputable def y (S0 K T v r q H : ℝ) : ℝ :=
  Real.log (H ^ 2 / (S0 * K)) / (v * Real.sqrt T) + lamb v r q * v * Real.sqrt T

/-- `BarrierOption._x1` from `Black-Scholes.py`. -/
noncomputable def x1 (S0 T v r q H : ℝ) : ℝ :=
  Real.log (S0 / H) / (v * Real.sqrt T) + lamb v r q * v * Real.sqrt T

/-- `BarrierOption._y1` from `Black-Scholes.py`. -/
noncomputable def y1 (S0 T v r q H : ℝ) : ℝ :=
  Real.log (H / S0) / (v * Real.sqrt T) + lamb v r q * v * Real.sqrt T

/-- The knock-selection tail shared by all four barrier methods in
`Black-Scholes.py`: return the out-value for `knock='out'`, the in-value for
`knock='in'`, and the sentinel `-1` (after a printed diagnostic) otherwise. -/
noncomputable def knock_select (vout vin : ℝ) (knock : String) : ℝ :=
  if knock = "out" then vout else if knock = "in" then vin else -1

theorem knock_select_out (vout vin : ℝ) : knock_select vout vin "out" = vout := rfl

theorem knock_select_in (vout vin : ℝ) : knock_select vout vin "in" = vin := rfl

/-- `BarrierOption.down_call` from `Black-Scholes.py`; the pair holds the
locals `(cdo, cdi)` assigned in either branch of the source. -/
noncomputable def down_call (S0 K T v r q H : ℝ) (knock : String) : ℝ :=
  let c := vanilla_european_call S0 K T v r q
  let cdocdi : ℝ × ℝ :=
    if K ≤ H then
      let cdi := S0 * Real.exp (-q * T) * (H / S0) ^ (2 * lamb v r q)
            * norm_cdf (y S0 K T v r q H)
          - K * Real.exp (-r * T) * (H / S0) ^ (2 * lamb v r q - 2)
            * norm_cdf (y S0 K T v r q H - v * Real.sqrt T)
      (c - cdi, cdi)
    else
      let cdo := S0 * norm_cdf (x1 S0 T v r q H) * Real.exp (-q * T)
          - K * Real.exp (-r * T) * norm_cdf (x1 S0 T v r q H - v * Real.sqrt T)
          - S0 * Real.exp (-q * T) * (H / S0) ^ (2 * lamb v r q)
            * norm_cdf (y1 S0 T v r q H)
          + K * Real.exp (-r * T) * (H / S0) ^ (2 * lamb v r q - 2)
            * norm_cdf (y1 S0 T v r q H - v * Real.sqrt T)
      (cdo, c - cdo)
  knock_select cdocdi.1 cdocdi.2 knock

/-- `BarrierOption.up_call` from `Black-Scholes.py`; the pair holds the locals
`(cuo, cui)` assigned in either branch of the source. -/
noncomputable def up_call (S0 K T v r q H : ℝ) (knock : String) : ℝ :=
  let c := vanilla_european_call S0 K T v r q
  let cuocui : ℝ × ℝ :=
    if H ≤ K then
      (0, c)
    else
      let cui := S0 * norm_cdf (x1 S0 T v r q H) * Real.exp (-q * T)
          - K * Real.exp (-r * T) * norm_cdf (x1 S0 T v r q H - v * Real.sqrt T)
          - S0 * Real.exp (-q * T) * (H / S0) ^ (2 * lamb v r q)
            * (norm_cdf (-y S0 K T v r q H) - norm_cdf (-y1 S0 T v r q H))
          + K * Real.exp (-r * T) * (H / S0) ^ (2 * lamb v r q - 2)
            * (norm_cdf (-y S0 K T v r q H + v * Real.sqrt T)
               - norm_cdf (-y1 S0 T v r q H + v * Real.sqrt T))
      (c - cui, cui)
  knock_select cuocui.1 cuocui.2 knock

/-- `BarrierOption.up_put` from `Black-Scholes.py`; the pair holds the locals
`(puo, pui)` assigned in either branch of the source.  In the `H >= K` branch
the source line `+ K * np.exp(-r * T) * (H / S0)**(2 * lamb - 2) *
ss.norm.cdf(-y + v * np.sqrt(T))` is a standalone expression statement (the
preceding line has no continuation backslash), so it is evaluated and
discarded and `pui` is only the `-S0 * ...` term. -/
noncomputable def up_put (S0 K T v r q H : ℝ) (knock : String) : ℝ :=
  let p := vanilla_european_put S0 K T v r q
  let puopui : ℝ × ℝ :=
    if H ≥ K then
      let pui := -S0 * Real.exp (-q * T) * (H / S0) ^ (2 * lamb v r q)
          * norm_cdf (-y S0 K T v r q H)
      (p - pui, pui)
    else
      let puo := -S0 * norm_cdf (-x1 S0 T v r q H) * Real.exp (-q * T)
          + K * Real.exp (-r * T) * norm_cdf (-x1 S0 T v r q H + v * Real.sqrt T)
          + S0 * Real.exp (-q * T) * (H / S0) ^ (2 * lamb v r q)
            * norm_cdf (-y1 S0 T v r q H)
          - K * Real.exp (-r * T) * (H / S0) ^ (2 * lamb v r q - 2)
            * norm_cdf (-y1 S0 T v r q H + v * Real.sqrt T)
      (puo, p - puo)
  knock_select puopui.1 puopui.2 knock

/-- `BarrierOption.down_put` from `Black-Scholes.py`; the pair holds the locals
`(pdo, pdi)` assigned in either branch of the source. -/
noncomputable def down_put (S0 K T v r q H : ℝ) (knock : String) : ℝ :=
  let p := vanilla_european_put S0 K T v r q
  let pdopdi : ℝ × ℝ :=
    if H ≥ K then
      (0, p)
    else
      let pdi := -S0 * norm_cdf (-x1 S0 T v r q H) * Real.exp (-q * T)
          + K * Real.exp (-r * T) * norm_cdf (-x1 S0 T v r q H + v * Real.sqrt T)
          + S0 * Real.exp (-q * T) * (H / S0) ^ (2 * lamb v r q)
            * (norm_cdf (y S0 K T v r q H) - norm_cdf (-y1 S0 T v r q H))
          - K * Real.exp (-r * T) * (H / S0) ^ (2 * lamb v r q - 2)
            * (norm_cdf (y S0 K T v r q H - v * Real.sqrt T)
               - norm_cdf (y1 S0 T v r q H - v * Real.sqrt T))
      (p - pdi, pdi)
  knock_select pdopdi.1 pdopdi.2 knock

/-- C3: for each of the four barrier families and positive S0, K, T, v, H and
any r, q, the value with `knock='in'` plus the value with `knock='out'` equals
the corresponding vanilla European option value on the same parameters. -/
theorem C3_knock_in_out_parity (S0 K T v r q H : ℝ)
    (hS : 0 < S0) (hK : 0 < K) (hT : 0 < T) (hv : 0 < v) (hH : 0 < H) :
    down_call S0 K T v r q H ("in") + down_call S0 K T v r q H ("out")
        = vanilla_european_call S0 K T v r q
      ∧ up_call S0 K T v r q H ("in") + up_call S0 K T v r q H ("out")
        = vanilla_european_call S0 K T v r q
      ∧ up_put S0 K T v r q H ("in") + up_put S0 K T v r q H ("out")
        = vanilla_european_put S0 K T v r q
      ∧ down_put S0 K T v r q H ("in") + down_put S0 K T v r q H ("out")
        = vanilla_european_put S0 K T v r q := by
  refine ⟨?_, ?_, ?_, ?_⟩
  · by_cases h : K ≤ H <;> simp [down_call, knock_select, h]
  · by_cases h : H ≤ K <;> simp [up_call, knock_select, h]
  · by_cases h : H ≥ K <;> simp [up_put, knock_select, h]
  · by_cases h : H ≥ K <;> simp [down_put, knock_select, h]

/-- Witness for C3 at S0 = 2, K = 1, T = 1, v = 1, r = 0, q = 0, H = 3. -/
theorem C3_knock_in_out_parity_witness :
    down_call 2 1 1 1 0 0 3 "in" + down_call 2 1 1 1 0 0 3 "out"
        = vanilla_european_call 2 1 1 1 0 0
      ∧ up_call 2 1 1 1 0 0 3 "in" + up_call 2 1 1 1 0 0 3 "out"
        = vanilla_european_call 2 1 1 1 0 0
      ∧ up_put 2 1 1 1 0 0 3 "in" + up_put 2 1 1 1 0 0 3 "out"
        = vanilla_european_put 2 1 1 1 0 0
      ∧ down_put 2 1 1 1 0 0 3 "in" + down_put 2 1 1 1 0 0 3 "out"
        = vanilla_european_put 2 1 1 1 0 0 :=
  C3_knock_in_out_parity 2 1 1 1 0 0 3 (by norm_num) (by norm_num) (by norm_num)
    (by norm_num) (by norm_num)

/-- C5: for positive S0, K, T, v and any r, q, and barrier H >= K, `up_put`
with `knock='in'` returns exactly `-S0*e^(-qT)*(H/S0)^(2*lambda)*Phi(-y)` (the
`+ K*e^(-rT)*...` source line is a dead standalone expression statement), and
`up_put` with `knock='out'` returns the vanilla put value minus that same
quantity. -/
theorem C5_up_put_dead_line (S0 K T v r q H : ℝ)
    (hS : 0 < S0) (hK : 0 < K) (hT : 0 < T) (hv : 0 < v) (hHK : H ≥ K) :
    up_put S0 K T v r q H ("in")
        = -S0 * Real.exp (-q * T) * (H / S0) ^ (2 * lamb v r q)
          * norm_cdf (-y S0 K T v r q H)
      ∧ up_put S0 K T v r q H ("out")
        = vanilla_european_put S0 K T v r q
          - (-S0 * Real.exp (-q * T) * (H / S0) ^ (2 * lamb v r q)
             * norm_cdf (-y S0 K T v r q H)) := by
  constructor <;> simp [up_put, knock_select, hHK]

/-- Witness for C5 at S0 = 2, K = 1, T = 1, v = 1, r = 0, q = 0, H = 3. -/
theorem C5_up_put_dead_line_witness :
    up_put 2 1 1 1 0 0 3 "in"
        = -2 * Real.exp (-0 * 1) * (3 / 2) ^ (2 * lamb 1 0 0)
          * norm_cdf (-y 2 1 1 1 0 0 3)
      ∧ up_put 2 1 1 1 0 0 3 "out"
        = vanilla_european_put 2 1 1 1 0 0
          - (-2 * Real.exp (-0 * 1) * (3 / 2) ^ (2 * lamb 1 0 0)
             * norm_cdf (-y 2 1 1 1 0 0 3)) :=
  C5_up_put_dead_line 2 1 1 1 0 0 3 (by norm_num) (by norm_num) (by norm_num)
    (by norm_num) (by norm_num)

/-- C9: for positive S0, K, T, v, H and any r, q: if H <= K then `up_call`
returns 0 for `knock='out'` and the vanilla call for `knock='in'`; if H >= K
then `down_put` returns 0 for `knock='out'` and the vanilla put for
`knock='in'`. -/
theorem C9_degenerate_barriers (S0 K T v r q H : ℝ)
    (hS : 0 < S0) (hK : 0 < K) (hT : 0 < T) (hv : 0 < v) (hH : 0 < H) :
    (H ≤ K → up_call S0 K T v r q H ("out") = 0
        ∧ up_call S0 K T v r q H ("in") = vanilla_european_call S0 K T v r q)
      ∧ (H ≥ K → down_put S0 K T v r q H ("out") = 0
        ∧ down_put S0 K T v r q H ("in") = vanilla_european_put S0 K T v r q) := by
  constructor
  · intro h
    constructor <;> simp [up_call, knock_select, h]
  · intro h
    constructor <;> simp [down_put, knock_select, h]

/-- Witness for C9 at S0 = 2, K = 1, T = 1, v = 1, r = 0, q = 0, H = 3 (the
second implication fires since 3 >= 1). -/
theorem C9_degenerate_barriers_witness :
    ((3 : ℝ) ≤ 1 → up_call 2 1 1 1 0 0 3 "out" = 0
        ∧ up_call 2 1 1 1 0 0 3 "in" = vanilla_european_call 2 1 1 1 0 0)
      ∧ ((3 : ℝ) ≥ 1 → down_put 2 1 1 1 0 0 3 "out" = 0
        ∧ down_put 2 1 1 1 0 0 3 "in" = vanilla_european_put 2 1 1 1 0 0) :=
  C9_degenerate_barriers 2 1 1 1 0 0 3 (by norm_num) (by norm_num) (by norm_num)
    (by norm_num) (by norm_num)

/-- Per-step time increment `dt = T/N` from `AmericanOption.py`. -/
noncomputable def dt (T : ℝ) (N : ℕ) : ℝ := T / N

/-- Up-move factor `u = exp(v * sqrt dt)` from `AmericanOption.py`. -/
noncomputable def u (T v : ℝ) (N : ℕ) : ℝ := Real.exp (v * Real.sqrt (dt T N))

/-- Down-move factor `d = 1/u` from `AmericanOption.py`. -/
noncomputable def d (T v : ℝ) (N : ℕ) : ℝ := 1 / u T v N

/-- Per-step growth factor `a = exp((r - q) * dt)` from `AmericanOption.py`. -/
noncomputable def a (T r q : ℝ) (N : ℕ) : ℝ := Real.exp ((r - q) * dt T N)

/-- Risk-neutral up probability `p = (a - d)/(u - d)` from `AmericanOption.py`. -/
noncomputable def p (T v r q : ℝ) (N : ℕ) : ℝ :=
  (a T r q N - d T v N) / (u T v N - d T v N)

/-- Exercise payoff used by both branches of `AmericanOption.py`: `s - K` for
the call branch, `K - s` for the put branch (`call` selects the branch; the
source duplicates the loop per branch with only this payoff differing). -/
noncomputable def intrinsic (K : ℝ) (call : Bool) (s : ℝ) : ℝ :=
  if call then s - K else K - s

/-- The `stock_tree` array from `AmericanOption.py`: allocated as
`np.zeros([N+1, N+1])` and filled with `S0 * u^(j-i) * d^i` only at cells with
`i <= j <= N`; all other cells keep the value 0. -/
noncomputable def stock_tree (S0 T v : ℝ) (N i j : ℕ) : ℝ :=
  if i ≤ j ∧ j ≤ N then S0 * u T v N ^ (j - i) * d T v N ^ i else 0

/-- Column `j = N - k` of the `option_tree` array from `AmericanOption.py`,
indexed by fuel `k` counting backward from maturity.  Fuel 0 is the terminal
column `option_tree[:, N] = max(0, payoff)`.  For an earlier column the source
first writes the discounted expectation into rows `i <= j` (rows `i > j` keep
the array's initial 0), then takes the elementwise maximum of the whole column
with the intrinsic payoff of `stock_tree[:, j]`. -/
noncomputable def option_col (S0 K T v r q : ℝ) (N : ℕ) (call : Bool) :
    ℕ → ℕ → ℝ
  | 0, i => max 0 (intrinsic K call (stock_tree S0 T v N i N))
  | k + 1, i =>
      max
        (if i ≤ N - (k + 1) then
          1 / a T r q N
            * (p T v r q N * option_col S0 K T v r q N call k i
              + (1 - p T v r q N) * option_col S0 K T v r q N call k (i + 1))
        else 0)
        (intrinsic K call (stock_tree S0 T v N i (N - (k + 1))))

/-- `AmericanOption` from `AmericanOption.py`: the backward induction result at
the root for kind 'call' or 'put', and the sentinel `-1` (after a printed
diagnostic) for any other kind string. -/
noncomputable def AmericanOption (S0 K T v r q : ℝ) (N : ℕ)
    (CallorPut : String) : ℝ :=
  if CallorPut = "call" then option_col S0 K T v r q N true N 0
  else if CallorPut = "put" then option_col S0 K T v r q N false N 0
  else -1

/-- Stock price at node `(i, j)` as the claim states it: `S0 * u^(j-i) * d^i`,
with no zero-padding of unused cells. -/
noncomputable def spec_stock (S0 T v : ℝ) (N i j : ℕ) : ℝ :=
  S0 * u T v N ^ (j - i) * d T v N ^ i

/-- The lattice recursion exactly as claim C1 states it: terminal values
`max(0, payoff)` at column N, and at column `j = N - (k+1)` the discounted
expectation of the two successors followed by the early-exercise floor, both
defined only on the triangular cells `i <= j`. -/
noncomputable def spec_option (S0 K T v r q : ℝ) (N : ℕ) (call : Bool) :
    ℕ → ℕ → ℝ
  | 0, i => max 0 (intrinsic K call (spec_stock S0 T v N i N))
  | k + 1, i =>
      max
        (1 / a T r q N
          * (p T v r q N * spec_option S0 K T v r q N call k i
            + (1 - p T v r q N) * spec_option S0 K T v r q N call k (i + 1)))
        (intrinsic K call (spec_stock S0 T v N i (N - (k + 1))))

/-- On the triangular cells `i <= j = N - k` the source's column recursion
(which floors the whole numpy column, zero cells included) agrees with the
claim's triangular recursion: the polluted cells `i > j` are never read back by
the backward induction. -/
theorem option_col_eq_spec (S0 K T v r q : ℝ) (N : ℕ) (call : Bool) :
    ∀ k, k ≤ N → ∀ i, i ≤ N - k →
      option_col S0 K T v r q N call k i = spec_option S0 K T v r q N call k i := by
  intro k
  induction k with
  | zero =>
    intro hk i hi
    have hiN : i ≤ N := by omega
    simp [option_col, spec_option, stock_tree, spec_stock, hiN]
  | succ k ih =>
    intro hk i hi
    have hkN : k ≤ N := by omega
    have h1 : i ≤ N - k := by omega
    have h2 : i + 1 ≤ N - k := by omega
    have hcond : i ≤ N - (k + 1) ∧ N - (k + 1) ≤ N := ⟨hi, by omega⟩
    show max _ _ = max _ _
    rw [if_pos hi, ih hkN i h1, ih hkN (i + 1) h2]
    have hstock : stock_tree S0 T v N i (N - (k + 1))
        = spec_stock S0 T v N i (N - (k + 1)) := by
      simp [stock_tree, spec_stock, hcond.1, hcond.2]
    rw [hstock]

/-- C1: for positive S0, K, T, v, any r, q and N >= 1, `AmericanOption` with
kind 'call' or 'put' returns `option[0][0]` of the claimed lattice recursion:
stock values `S0*u^(j-i)*d^i`, terminal payoffs at column N, and for each
column j from N-1 down to 0 the discounted expectation
`(1/a)*(p*option[i][j+1] + (1-p)*option[i+1][j+1])` followed by the
early-exercise floor on every cell `i = 0..j`. -/
theorem C1_american_lattice (S0 K T v r q : ℝ) (N : ℕ)
    (hS : 0 < S0) (hK : 0 < K) (hT : 0 < T) (hv : 0 < v) (hN : 1 ≤ N) :
    AmericanOption S0 K T v r q N ("call") = spec_option S0 K T v r q N true N 0
      ∧ AmericanOption S0 K T v r q N ("put")
        = spec_option S0 K T v r q N false N 0 := by
  constructor
  · show (if ("call" : String) = "call" then _ else _) = _
    rw [if_pos rfl]
    exact option_col_eq_spec S0 K T v r q N true N le_rfl 0 (by omega)
  · have h1 : ("put" : String) ≠ "call" := by decide
    show (if ("put" : String) = "call" then _ else _) = _
    rw [if_neg h1, if_pos rfl]
    exact option_col_eq_spec S0 K T v r q N false N le_rfl 0 (by omega)

/-- Witness for C1 at S0 = 2, K = 1, T = 1, v = 1, r = 0, q = 0, N = 2. -/
theorem C1_american_lattice_witness :
    AmericanOption 2 1 1 1 0 0 2 ("call") = spec_option 2 1 1 1 0 0 2 true 2 0
      ∧ AmericanOption 2 1 1 1 0 0 2 ("put")
        = spec_option 2 1 1 1 0 0 2 false 2 0 :=
  C1_american_lattice 2 1 1 1 0 0 2 (by norm_num) (by norm_num) (by norm_num)
    (by norm_num) (by norm_num)

/-- C6 counterexample: invoked with kind 'straddle' the source does not fail;
it prints a diagnostic and returns the numeric sentinel -1, contradicting the
claim that an InvalidArgument error is surfaced and no sentinel is returned. -/
theorem C6_counterexample :
    AmericanOption 50 50 1 (3 / 10) (5 / 100) 0 1000 ("straddle") = -1 := by
  simp [AmericanOption]

/-- C6 amended: `AmericanOption` invoked with an option-kind argument outside
{'call', 'put'} returns the numeric sentinel -1 (after printing a diagnostic);
no error is raised to the caller. -/
theorem C6_invalid_kind_sentinel (S0 K T v r q : ℝ) (N : ℕ) (kind : String)
    (hc : kind ≠ "call") (hp : kind ≠ "put") :
    AmericanOption S0 K T v r q N kind = -1 := by
  simp [AmericanOption, hc, hp]

/-- Witness for the amended C6 at kind 'banana'. -/
theorem C6_invalid_kind_sentinel_witness :
    AmericanOption 2 1 1 1 0 0 3 ("banana") = -1 :=
  C6_invalid_kind_sentinel 2 1 1 1 0 0 3 "banana" (by decide) (by decide)

/-- C10: for T > 0, v > 0, any r, q and N >= 1, the lattice step parameters of
`AmericanOption` satisfy `dt = T/N`, `u = exp(v*sqrt dt)`, `d = 1/u`,
`a = exp((r-q)*dt)`, `p = (a-d)/(u-d)`, the invariant `0 < d < 1 < u` holds,
and whenever additionally `d < a < u` (the arbitrage-free case) `0 < p < 1`. -/
theorem C10_lattice_parameters (T v r q : ℝ) (N : ℕ)
    (hT : 0 < T) (hv : 0 < v) (hN : 1 ≤ N) :
    dt T N = T / N
      ∧ u T v N = Real.exp (v * Real.sqrt (dt T N))
      ∧ d T v N = 1 / u T v N
      ∧ a T r q N = Real.exp ((r - q) * dt T N)
      ∧ p T v r q N = (a T r q N - d T v N) / (u T v N - d T v N)
      ∧ (0 < d T v N ∧ d T v N < 1 ∧ 1 < u T v N)
      ∧ (d T v N < a T r q N → a T r q N < u T v N →
          0 < p T v r q N ∧ p T v r q N < 1) := by
  have hNpos : (0 : ℝ) < N := by exact_mod_cast Nat.lt_of_lt_of_le Nat.zero_lt_one hN
  have hdt : 0 < dt T N := div_pos hT hNpos
  have hsdt : 0 < Real.sqrt (dt T N) := Real.sqrt_pos.mpr hdt
  have hvs : 0 < v * Real.sqrt (dt T N) := mul_pos hv hsdt
  have hu : 1 < u T v N := by
    unfold u
    calc (1 : ℝ) = Real.exp 0 := Real.exp_zero.symm
      _ < Real.exp (v * Real.sqrt (dt T N)) := Real.exp_lt_exp.mpr hvs
  have hupos : 0 < u T v N := lt_trans one_pos hu
  have hd0 : 0 < d T v N := by unfold d; positivity
  have hd1 : d T v N < 1 := by
    unfold d
    rw [div_lt_one hupos]
    exact hu
  refine ⟨rfl, rfl, rfl, rfl, rfl, ⟨hd0, hd1, hu⟩, fun had hau => ?_⟩
  have hud : 0 < u T v N - d T v N := by linarith
  constructor
  · exact div_pos (by linarith) hud
  · unfold p
    rw [div_lt_one hud]
    linarith

/-- Witness for C10 at T = 1, v = 1, r = 0, q = 0, N = 4. -/
theorem C10_lattice_parameters_witness :
    dt 1 4 = 1 / 4
      ∧ u 1 1 4 = Real.exp (1 * Real.sqrt (dt 1 4))
      ∧ d 1 1 4 = 1 / u 1 1 4
      ∧ a 1 0 0 4 = Real.exp ((0 - 0) * dt 1 4)
      ∧ p 1 1 0 0 4 = (a 1 0 0 4 - d 1 1 4) / (u 1 1 4 - d 1 1 4)
      ∧ (0 < d 1 1 4 ∧ d 1 1 4 < 1 ∧ 1 < u 1 1 4)
      ∧ (d 1 1 4 < a 1 0 0 4 → a 1 0 0 4 < u 1 1 4 →
          0 < p 1 1 0 0 4 ∧ p 1 1 0 0 4 < 1) := by
  have h := C10_lattice_parameters 1 1 0 0 4 (by norm_num) (by norm_num)
    (by norm_num)
  simpa using h
